import Mathlib

/-
Verification of the maya-tools repository (Maya DCC tooling scripts)
against its natural-language specification.

The Python sources operate on a live Maya scene through the `cmds` API.
For the shallow embedding, the relevant part of the Maya scene is modelled
explicitly (vertex world positions, the two end vertices of every edge,
border-loop queries, face lists, face areas), and each Python function is
translated into a Lean function over that model.  `float` arithmetic is
idealised as exact arithmetic (`Real` where square roots occur, `Rat`
elsewhere); Python's falsy checks on numbers and lists are translated as
explicit comparisons with `0` / `[]`; Python exceptions are modelled with
`Except` / `Option`.
-/

namespace MayaTools

/-! ## Model of the Maya scene state used by auto_bridge.py

`pos v` is the world-space translation `cmds.xform(v, q=True, t=True, ws=True)`
of vertex `v`, and `edgeVerts e` is the pair of end vertices that
`cmds.polyListComponentConversion(e, fe=True, tv=True)` (flattened by
`cmds.ls(..., fl=True)`) returns for edge `e`. -/
structure Scene where
  pos : String → ℝ × ℝ × ℝ
  edgeVerts : String → String × String

/-- Euclidean distance between two points of `ℝ³`, written with the explicit
square root that Python's `math.dist` computes. -/
noncomputable def euclid (p q : ℝ × ℝ × ℝ) : ℝ :=
  Real.sqrt ((p.1 - q.1) ^ 2 + (p.2.1 - q.2.1) ^ 2 + (p.2.2 - q.2.2) ^ 2)

/-- Embedding of `auto_bridge.calculate_vertices_distance`: the Euclidean
distance (`math.dist`) between the world positions of two vertices. -/
noncomputable def calculate_vertices_distance (sc : Scene)
    (vert_one vert_two : String) : ℝ :=
  euclid (sc.pos vert_one) (sc.pos vert_two)

/-- Embedding of `auto_bridge.calculate_edges_distance`: for the two end
vertices of `edge_one` take the minimum distance to the two end vertices of
`edge_two`, and average the two minima. -/
noncomputable def calculate_edges_distance (sc : Scene)
    (edge_one edge_two : String) : ℝ :=
  let verts_one := sc.edgeVerts edge_one
  let verts_two := sc.edgeVerts edge_two
  let min_dist_one :=
    min (calculate_vertices_distance sc verts_one.1 verts_two.1)
        (calculate_vertices_distance sc verts_one.1 verts_two.2)
  let min_dist_two :=
    min (calculate_vertices_distance sc verts_one.2 verts_two.1)
        (calculate_vertices_distance sc verts_one.2 verts_two.2)
  (min_dist_one + min_dist_two) / 2

/-! ## bridge_closest_edges

The Python loop keeps `closest_edge_pair` (initially the empty list) and
`closest_distance` (initially `0.0`); the pair is overwritten on the first
iteration (`if not closest_edge_pair`) and afterwards whenever a strictly
smaller distance appears.  The accumulator is embedded as
`Option ((String × String) × ℝ)`, `none` standing for the empty initial
pair. -/

/-- One iteration of the nested loop body of
`auto_bridge.bridge_closest_edges`. -/
noncomputable def bce_step (sc : Scene)
    (acc : Option ((String × String) × ℝ)) (p : String × String) :
    Option ((String × String) × ℝ) :=
  let edges_distance := calculate_edges_distance sc p.1 p.2
  match acc with
  | none => some (p, edges_distance)
  | some (q, closest_distance) =>
      if edges_distance < closest_distance then some (p, edges_distance)
      else some (q, closest_distance)

/-- The pairs visited by the nested `for edge_main ... for edge_secondary`
loops, in iteration order. -/
def bce_pairs (edges_main edges_secondary : List String) :
    List (String × String) :=
  edges_main.flatMap fun edge_main =>
    edges_secondary.map fun edge_secondary => (edge_main, edge_secondary)

/-- Embedding of `auto_bridge.bridge_closest_edges`: the pair of edges, one
from each border, at which the nested loop settles (the pair that the function
then passes to `cmds.polyBridgeEdge` and returns).  `none` models the
`IndexError` that the Python code would hit on an empty pair. -/
noncomputable def bridge_closest_edges (sc : Scene)
    (edges_main edges_secondary : List String) : Option (String × String) :=
  ((bce_pairs edges_main edges_secondary).foldl (bce_step sc) none).map
    Prod.fst

/-! ## connect_closest_vertex

`shortest_distance` starts as `["", 0]` and the loop guard is
`if not shortest_distance[1]`, i.e. the stored entry is overwritten whenever
the stored *distance* equals `0.0` — not merely on the first iteration. -/

/-- One iteration of the loop body of `auto_bridge.connect_closest_vertex`;
the accumulator `("", 0)` models the Python initial `["", 0]`. -/
noncomputable def ccv_step (sc : Scene) (connecting_vert : String)
    (acc : String × ℝ) (vert : String) : String × ℝ :=
  let distance := calculate_vertices_distance sc connecting_vert vert
  if acc.2 = 0 then (vert, distance)
  else if distance < acc.2 then (vert, distance)
  else acc

/-- Embedding of `auto_bridge.connect_closest_vertex`: the vertex that the
loop settles on, i.e. the second argument the function passes to
`cmds.polyConnectComponents`. -/
noncomputable def connect_closest_vertex (sc : Scene)
    (connecting_vert : String) (vert_list : List String) : String :=
  (vert_list.foldl (ccv_step sc connecting_vert) ("", 0)).1

/-! ## Properties of the closest-edge fold -/

/-- Invariant of the `bridge_closest_edges` fold: starting from a stored pair
whose stored distance is its edge distance, the fold ends on a visited (or the
initial) pair whose distance is a lower bound for the initial pair and for
every visited pair. -/
lemma bce_foldl_from_some (sc : Scene) (ps : List (String × String))
    (q0 : String × String) (d0 : ℝ)
    (h0 : d0 = calculate_edges_distance sc q0.1 q0.2) :
    ∃ q d, ps.foldl (bce_step sc) (some (q0, d0)) = some (q, d) ∧
      d = calculate_edges_distance sc q.1 q.2 ∧
      (q ∈ ps ∨ q = q0) ∧ d ≤ d0 ∧
      ∀ p ∈ ps, d ≤ calculate_edges_distance sc p.1 p.2 := by
  induction ps generalizing q0 d0 with
  | nil =>
      exact ⟨q0, d0, rfl, h0, Or.inr rfl, le_refl _, by simp⟩
  | cons p ps ih =>
      simp only [List.foldl_cons]
      by_cases hlt :
          calculate_edges_distance sc p.1 p.2 < d0
      · have hstep : bce_step sc (some (q0, d0)) p
            = some (p, calculate_edges_distance sc p.1 p.2) := by
          simp [bce_step, hlt]
        rw [hstep]
        obtain ⟨q, d, hfold, hd, hmem, hle, hall⟩ :=
          ih p (calculate_edges_distance sc p.1 p.2) rfl
        refine ⟨q, d, hfold, hd, ?_, ?_, ?_⟩
        · rcases hmem with h | h
          · exact Or.inl (List.mem_cons_of_mem _ h)
          · exact Or.inl (h ▸ List.mem_cons_self _ _)
        · exact le_of_lt (lt_of_le_of_lt hle hlt)
        · intro x hx
          rcases List.mem_cons.mp hx with h | h
          · exact h ▸ hle
          · exact hall x h
      · have hstep : bce_step sc (some (q0, d0)) p = some (q0, d0) := by
          simp [bce_step, hlt]
        rw [hstep]
        obtain ⟨q, d, hfold, hd, hmem, hle, hall⟩ := ih q0 d0 h0
        refine ⟨q, d, hfold, hd, ?_, hle, ?_⟩
        · rcases hmem with h | h
          · exact Or.inl (List.mem_cons_of_mem _ h)
          · exact Or.inr h
        · intro x hx
          rcases List.mem_cons.mp hx with h | h
          · exact h ▸ le_trans hle (le_of_not_lt hlt)
          · exact hall x h

/-- Membership in the visited pair list is exactly componentwise
membership. -/
lemma mem_bce_pairs (edges_main edges_secondary : List String)
    (p : String × String) :
    p ∈ bce_pairs edges_main edges_secondary ↔
      p.1 ∈ edges_main ∧ p.2 ∈ edges_secondary := by
  cases p with
  | mk a b =>
      simp only [bce_pairs, List.mem_flatMap, List.mem_map, Prod.mk.injEq]
      constructor
      · rintro ⟨x, hx, y, hy, rfl, rfl⟩
        exact ⟨hx, hy⟩
      · rintro ⟨ha, hb⟩
        exact ⟨a, ha, b, hb, rfl, rfl⟩

/-- C1.  For non-empty borders, `bridge_closest_edges` returns a pair
`(edge_main, edge_secondary)` drawn from `edges_main × edges_secondary` whose
`calculate_edges_distance` value is minimal over all such pairs. -/
theorem bridge_closest_edges_minimal (sc : Scene)
    (edges_main edges_secondary : List String)
    (h1 : edges_main ≠ []) (h2 : edges_secondary ≠ []) :
    ∃ edge_main edge_secondary,
      bridge_closest_edges sc edges_main edges_secondary
        = some (edge_main, edge_secondary) ∧
      edge_main ∈ edges_main ∧ edge_secondary ∈ edges_secondary ∧
      ∀ x ∈ edges_main, ∀ y ∈ edges_secondary,
        calculate_edges_distance sc edge_main edge_secondary ≤
          calculate_edges_distance sc x y := by
  obtain ⟨a, as, rfl⟩ := List.exists_cons_of_ne_nil h1
  obtain ⟨b, bs, rfl⟩ := List.exists_cons_of_ne_nil h2
  have hpairs : bce_pairs (a :: as) (b :: bs)
      = (a, b) :: ((bs.map fun y => (a, y)) ++ bce_pairs as (b :: bs)) := by
    simp [bce_pairs]
  unfold bridge_closest_edges
  rw [hpairs]
  rw [List.foldl_cons]
  have hstep : bce_step sc none (a, b)
      = some ((a, b), calculate_edges_distance sc a b) := rfl
  rw [hstep]
  obtain ⟨q, d, hfold, hd, hmem, hle, hall⟩ :=
    bce_foldl_from_some sc (bs.map (fun y => (a, y)) ++ bce_pairs as (b :: bs))
      (a, b) (calculate_edges_distance sc a b) rfl
  rw [hfold]
  have hqmem : q ∈ bce_pairs (a :: as) (b :: bs) := by
    rw [hpairs]
    rcases hmem with h | h
    · exact List.mem_cons_of_mem _ h
    · exact h ▸ List.mem_cons_self _ _
  obtain ⟨hq1, hq2⟩ := (mem_bce_pairs _ _ q).mp hqmem
  refine ⟨q.1, q.2, rfl, hq1, hq2, ?_⟩
  intro x hx y hy
  have hxy : (x, y) ∈ bce_pairs (a :: as) (b :: bs) :=
    (mem_bce_pairs _ _ (x, y)).mpr ⟨hx, hy⟩
  rw [hpairs] at hxy
  rw [← hd]
  rcases List.mem_cons.mp hxy with h | h
  · have : x = a ∧ y = b := by
      simpa using Prod.mk.injEq .. ▸ h
    rcases this with ⟨rfl, rfl⟩
    exact hle
  · exact hall (x, y) h

/-- Closed instance of `bridge_closest_edges_minimal` on a concrete scene and
concrete one-edge borders. -/
theorem bridge_closest_edges_minimal_witness :
    (["e0"] : List String) ≠ [] ∧ (["f0"] : List String) ≠ [] ∧
    ∃ edge_main edge_secondary,
      bridge_closest_edges
          ⟨fun _ => ((0 : ℝ), 0, 0), fun _ => ("a", "b")⟩ ["e0"] ["f0"]
        = some (edge_main, edge_secondary) ∧
      edge_main ∈ (["e0"] : List String) ∧
      edge_secondary ∈ (["f0"] : List String) ∧
      ∀ x ∈ (["e0"] : List String), ∀ y ∈ (["f0"] : List String),
        calculate_edges_distance
            ⟨fun _ => ((0 : ℝ), 0, 0), fun _ => ("a", "b")⟩ edge_main
            edge_secondary ≤
          calculate_edges_distance
            ⟨fun _ => ((0 : ℝ), 0, 0), fun _ => ("a", "b")⟩ x y :=
  ⟨by simp, by simp,
    bridge_closest_edges_minimal _ ["e0"] ["f0"] (by simp) (by simp)⟩

/-! ## The edge-distance formula (C2) -/

/-- The canonical embedding of a coordinate triple into
`EuclideanSpace ℝ (Fin 3)`. -/
noncomputable def toE (p : ℝ × ℝ × ℝ) : EuclideanSpace ℝ (Fin 3) :=
  ![p.1, p.2.1, p.2.2]

/-- The explicit square-root formula of `math.dist` agrees with the distance
of `EuclideanSpace ℝ (Fin 3)`. -/
lemma euclid_eq_dist (p q : ℝ × ℝ × ℝ) : euclid p q = dist (toE p) (toE q) := by
  rw [EuclideanSpace.dist_eq]
  simp [toE, Fin.sum_univ_three, Real.dist_eq, sq_abs, euclid]

/-- C2.  `calculate_edges_distance` equals the average of the two minima of
Euclidean (world-space) vertex distances described by the specification:
`(min(d(a1,b1), d(a1,b2)) + min(d(a2,b1), d(a2,b2))) / 2`. -/
theorem calculate_edges_distance_formula (sc : Scene) (edge_one edge_two : String) :
    calculate_edges_distance sc edge_one edge_two =
      (min (dist (toE (sc.pos (sc.edgeVerts edge_one).1))
                 (toE (sc.pos (sc.edgeVerts edge_two).1)))
           (dist (toE (sc.pos (sc.edgeVerts edge_one).1))
                 (toE (sc.pos (sc.edgeVerts edge_two).2))) +
       min (dist (toE (sc.pos (sc.edgeVerts edge_one).2))
                 (toE (sc.pos (sc.edgeVerts edge_two).1)))
           (dist (toE (sc.pos (sc.edgeVerts edge_one).2))
                 (toE (sc.pos (sc.edgeVerts edge_two).2)))) / 2 := by
  simp [calculate_edges_distance, calculate_vertices_distance, euclid_eq_dist]

/-! ## The zero-distance slip in connect_closest_vertex (C4)

Because the Python loop guard is `if not shortest_distance[1]`, a stored
candidate at distance `0.0` is unconditionally overwritten by the next
candidate, whatever its distance.  The following concrete scene exhibits
this: the connecting vertex sits exactly on `v0` and one unit away from
`v1`, yet the function connects it to `v1`. -/

/-- A concrete scene for the zero-distance failing input: every vertex is at
the origin except `v1`, which is at `(1, 0, 0)`. -/
noncomputable def ccvScene : Scene :=
  ⟨fun v => if v = "v1" then ((1 : ℝ), 0, 0) else (0, 0, 0),
   fun _ => ("a", "b")⟩

/-- C4.  Failing input for `connect_closest_vertex`: with candidates
`[v0, v1]` where `v0` is at distance `0` and `v1` at distance `1` from the
connecting vertex, the code connects to `v1`, not to the closest vertex
`v0`. -/
theorem connect_closest_vertex_zero_distance_bug :
    calculate_vertices_distance ccvScene "c" "v0" = 0 ∧
    calculate_vertices_distance ccvScene "c" "v1" = 1 ∧
    connect_closest_vertex ccvScene "c" ["v0", "v1"] = "v1" := by
  have h0 : calculate_vertices_distance ccvScene "c" "v0" = 0 := by
    simp [calculate_vertices_distance, euclid, ccvScene]
  have hc : ccvScene.pos "c" = ((0 : ℝ), 0, 0) := by simp [ccvScene]
  have hv1 : ccvScene.pos "v1" = ((1 : ℝ), 0, 0) := by simp [ccvScene]
  have h1 : calculate_vertices_distance ccvScene "c" "v1" = 1 := by
    simp only [calculate_vertices_distance, euclid, hc, hv1]
    rw [Real.sqrt_eq_one]
    norm_num
  refine ⟨h0, h1, ?_⟩
  unfold connect_closest_vertex
  simp only [List.foldl_cons, List.foldl_nil]
  have hstep1 : ccv_step ccvScene "c" ("", 0) "v0"
      = ("v0", calculate_vertices_distance ccvScene "c" "v0") := by
    simp [ccv_step]
  have hstep2 : ccv_step ccvScene "c"
      ("v0", calculate_vertices_distance ccvScene "c" "v0") "v1"
      = ("v1", calculate_vertices_distance ccvScene "c" "v1") := by
    simp [ccv_step, h0]
  rw [hstep1, hstep2]

/-! ## create_multiple_windows_helpers.get_window_border (C5, C9)

Model of the slice of Maya state this function touches: the list of faces of
the object (`cmds.ls("obj.f[*]")`), the face that `cmds.polyCloseBorder`
creates for a given edge border, and the face areas that
`cmds.polyEvaluate(..., fa=True)` reports.  Areas are idealised as exact
rationals. -/
structure WinScene where
  faces : List String
  closeFace : List String → String
  faceArea : String → ℚ

/-- One iteration of the `for i in range(2)` loop of `get_window_border`:
close the border (adding its new face to the face list), diff the face lists,
measure the area of the new faces, update the `smaller_area` accumulator
(`if area < smaller_area[1] or smaller_area[1] == 0`), and delete the new
faces again.  Returns the updated accumulator and the updated face list. -/
def gwb_step (sc : WinScene) (st : List String) (acc : List String × ℚ)
    (border : List String) : (List String × ℚ) × List String :=
  let faces_list_old := st
  let faces_list_new := st ++ [sc.closeFace border]
  let new_face := faces_list_new.filter fun f => decide (f ∉ faces_list_old)
  let area := (new_face.map sc.faceArea).sum
  let acc' := if area < acc.2 ∨ acc.2 = 0 then (border, area) else acc
  (acc', faces_list_new.filter fun f => decide (f ∉ new_face))

/-- Embedding of
`create_multiple_windows_helpers.get_window_border`: runs the two loop
iterations starting from `smaller_area = [[], 0.0]` and returns the selected
border together with the final face list of the object. -/
def get_window_border (sc : WinScene)
    (edge_borders : List String × List String) :
    List String × List String :=
  let r1 := gwb_step sc sc.faces ([], 0) edge_borders.1
  let r2 := gwb_step sc r1.2 r1.1 edge_borders.2
  (r2.1.1, r2.2)

/-- When `polyCloseBorder` creates a genuinely fresh face, the face-list diff
taken by the loop body is exactly that face. -/
lemma gwb_step_new_face (sc : WinScene) (st : List String)
    (border : List String)
    (h : sc.closeFace border ∉ st) :
    ((st ++ [sc.closeFace border]).filter fun f => decide (f ∉ st))
      = [sc.closeFace border] := by
  rw [List.filter_append]
  have h1 : st.filter (fun f => decide (f ∉ st)) = [] := by
    apply List.filter_eq_nil_iff.mpr
    intro a ha
    simp [ha]
  have h2 : ([sc.closeFace border].filter fun f => decide (f ∉ st))
      = [sc.closeFace border] := by
    simp [List.filter, h]
  rw [h1, h2, List.nil_append]

/-- Frame property of one loop iteration: the deletion of the diffed faces
restores the face list exactly, provided the closing face was fresh. -/
lemma gwb_step_frame (sc : WinScene) (st : List String)
    (acc : List String × ℚ) (border : List String)
    (h : sc.closeFace border ∉ st) :
    (gwb_step sc st acc border).2 = st := by
  unfold gwb_step
  simp only [gwb_step_new_face sc st border h]
  rw [List.filter_append]
  have h1 : st.filter (fun f => decide (f ∉ [sc.closeFace border])) = st := by
    apply List.filter_eq_self.mpr
    intro a ha
    have : a ≠ sc.closeFace border := fun heq => h (heq ▸ ha)
    simp [this]
  have h2 : ([sc.closeFace border].filter
      fun f => decide (f ∉ [sc.closeFace border])) = [] := by
    simp
  rw [h1, h2, List.append_nil]

/-- Accumulator update of one loop iteration on a fresh closing face: the
measured area is the closing face's area and the stored border is replaced
exactly when that area is smaller or the stored area is zero. -/
lemma gwb_step_acc (sc : WinScene) (st : List String)
    (acc : List String × ℚ) (border : List String)
    (h : sc.closeFace border ∉ st) :
    (gwb_step sc st acc border).1 =
      if sc.faceArea (sc.closeFace border) < acc.2 ∨ acc.2 = 0
      then (border, sc.faceArea (sc.closeFace border)) else acc := by
  unfold gwb_step
  simp only [gwb_step_new_face sc st border h, List.map_cons,
    List.map_nil, List.sum_cons, List.sum_nil, add_zero]

/-- C9.  `get_window_border` leaves the face list of the object unchanged:
both temporarily created faces are deleted before it returns. -/
theorem get_window_border_preserves_faces (sc : WinScene)
    (edge_borders : List String × List String)
    (h1 : sc.closeFace edge_borders.1 ∉ sc.faces)
    (h2 : sc.closeFace edge_borders.2 ∉ sc.faces) :
    (get_window_border sc edge_borders).2 = sc.faces := by
  unfold get_window_border
  simp only [gwb_step_frame sc sc.faces _ _ h1]
  exact gwb_step_frame sc sc.faces _ _ h2

/-- Closed instance of `get_window_border_preserves_faces` on a concrete
scene. -/
theorem get_window_border_preserves_faces_witness :
    (WinScene.closeFace ⟨["f0"], fun _ => "g", fun _ => 1⟩ ["e0"]
        ∉ WinScene.faces ⟨["f0"], fun _ => "g", fun _ => 1⟩) ∧
    (WinScene.closeFace ⟨["f0"], fun _ => "g", fun _ => 1⟩ ["e1"]
        ∉ WinScene.faces ⟨["f0"], fun _ => "g", fun _ => 1⟩) ∧
    (get_window_border ⟨["f0"], fun _ => "g", fun _ => 1⟩
        (["e0"], ["e1"])).2 = WinScene.faces ⟨["f0"], fun _ => "g", fun _ => 1⟩ :=
  ⟨by decide, by decide,
    get_window_border_preserves_faces ⟨["f0"], fun _ => "g", fun _ => 1⟩
      (["e0"], ["e1"]) (by decide) (by decide)⟩

/-- A concrete scene on which the first border closes to a face of area `0`
and the second to a face of area `5`. -/
def gwbZeroScene : WinScene :=
  ⟨[], fun b => if b = ["e0"] then "F0" else "F1",
   fun f => if f = "F0" then 0 else 5⟩

/-- Counterexample to C5 as stated: on `gwbZeroScene` the first border's
closing face has area `0`, strictly smaller than the second's area `5`, yet
`get_window_border` returns the *second* border, because a stored area of
zero is unconditionally overwritten. -/
theorem get_window_border_zero_area_counterexample :
    gwbZeroScene.faceArea (gwbZeroScene.closeFace ["e0"]) = 0 ∧
    gwbZeroScene.faceArea (gwbZeroScene.closeFace ["e1"]) = 5 ∧
    (get_window_border gwbZeroScene (["e0"], ["e1"])).1 = ["e1"] := by
  refine ⟨by simp [gwbZeroScene], by simp [gwbZeroScene], ?_⟩
  simp [get_window_border, gwb_step, gwbZeroScene]

/-- C5 (amended).  Provided both closing faces are fresh and the first
border's measured area is nonzero, `get_window_border` returns the border
whose closing face has the strictly smaller area. -/
theorem get_window_border_smaller_area (sc : WinScene)
    (edge_borders : List String × List String)
    (h1 : sc.closeFace edge_borders.1 ∉ sc.faces)
    (h2 : sc.closeFace edge_borders.2 ∉ sc.faces)
    (hz : sc.faceArea (sc.closeFace edge_borders.1) ≠ 0) :
    (sc.faceArea (sc.closeFace edge_borders.1) <
        sc.faceArea (sc.closeFace edge_borders.2) →
      (get_window_border sc edge_borders).1 = edge_borders.1) ∧
    (sc.faceArea (sc.closeFace edge_borders.2) <
        sc.faceArea (sc.closeFace edge_borders.1) →
      (get_window_border sc edge_borders).1 = edge_borders.2) := by
  have hacc1 : (gwb_step sc sc.faces ([], 0) edge_borders.1).1
      = (edge_borders.1, sc.faceArea (sc.closeFace edge_borders.1)) := by
    rw [gwb_step_acc sc sc.faces _ _ h1]
    simp
  have hst1 : (gwb_step sc sc.faces ([], 0) edge_borders.1).2 = sc.faces :=
    gwb_step_frame sc sc.faces _ _ h1
  constructor
  · intro hlt
    have hcond : ¬(sc.faceArea (sc.closeFace edge_borders.2) <
        sc.faceArea (sc.closeFace edge_borders.1) ∨
        sc.faceArea (sc.closeFace edge_borders.1) = 0) := by
      push_neg
      exact ⟨le_of_lt hlt, hz⟩
    unfold get_window_border
    simp only [hst1, hacc1,
      gwb_step_acc sc sc.faces
        (edge_borders.1, sc.faceArea (sc.closeFace edge_borders.1))
        edge_borders.2 h2]
    rw [if_neg hcond]
  · intro hlt
    unfold get_window_border
    simp only [hst1, hacc1,
      gwb_step_acc sc sc.faces
        (edge_borders.1, sc.faceArea (sc.closeFace edge_borders.1))
        edge_borders.2 h2]
    rw [if_pos (Or.inl hlt)]

/-- Closed instance of `get_window_border_smaller_area` on a concrete scene
with areas `2` (first border) and `3` (second border). -/
theorem get_window_border_smaller_area_witness :
    (WinScene.closeFace ⟨[], fun b => if b = ["e0"] then "F0" else "F1",
        fun f => if f = "F0" then 2 else 3⟩ ["e0"]
      ∉ WinScene.faces ⟨[], fun b => if b = ["e0"] then "F0" else "F1",
        fun f => if f = "F0" then 2 else 3⟩) ∧
    ((2 : ℚ) < 3) ∧
    (get_window_border ⟨[], fun b => if b = ["e0"] then "F0" else "F1",
        fun f => if f = "F0" then 2 else 3⟩ (["e0"], ["e1"])).1 = ["e0"] := by
  refine ⟨by decide, by decide, ?_⟩
  exact (get_window_border_smaller_area
      ⟨[], fun b => if b = ["e0"] then "F0" else "F1",
        fun f => if f = "F0" then 2 else 3⟩
      (["e0"], ["e1"]) (by decide) (by decide) (by decide)).1 (by decide)

/-! ## duplicate_around_helpers.duplicate_and_rotate_object (C6)

The loop duplicates the previous object `amount - 1` times and applies
`cmds.rotate(..., r=True)` about the pivot to each duplicate.  The model
tracks, for each created object, its name and its accumulated relative
rotation triple (the effect of the `cmds.rotate` calls); `cmds.duplicate`
copies the source object's rotation and picks a fresh name, modelled by the
name oracle `fresh`. -/

/-- A scene object: its name and its accumulated rotation channels. -/
structure MObj where
  name : String
  rot : ℚ × ℚ × ℚ
  deriving DecidableEq

/-- Componentwise sum of two rotation triples. -/
def addRot (a b : ℚ × ℚ × ℚ) : ℚ × ℚ × ℚ :=
  (a.1 + b.1, a.2.1 + b.2.1, a.2.2 + b.2.2)

/-- Natural multiple of a rotation triple. -/
def nsmulRot (n : ℕ) (v : ℚ × ℚ × ℚ) : ℚ × ℚ × ℚ :=
  ((n : ℚ) * v.1, (n : ℚ) * v.2.1, (n : ℚ) * v.2.2)

/-- The argument triple of the `cmds.rotate` call that
`duplicate_and_rotate_object` issues for a given axis: `rotate_num` on the
chosen axis, and no call at all (a zero rotation) for any other string. -/
def rotate_args (axis : String) (rotate_num : ℚ) : ℚ × ℚ × ℚ :=
  if axis = "x" then (rotate_num, 0, 0)
  else if axis = "y" then (0, rotate_num, 0)
  else if axis = "z" then (0, 0, rotate_num)
  else (0, 0, 0)

/-- The `for _ in range(amount - 1)` loop of `duplicate_and_rotate_object`:
duplicate the previous object under a fresh name, rotate it by `rotate_num`
about the axis, and append it. -/
def dar_loop (fresh : ℕ → String) (axis : String) (rotate_num : ℚ) :
    ℕ → ℕ → MObj → List MObj
  | 0, _, _ => []
  | n + 1, i, dup =>
      let new : MObj := ⟨fresh i, addRot dup.rot (rotate_args axis rotate_num)⟩
      new :: dar_loop fresh axis rotate_num n (i + 1) new

/-- Embedding of
`duplicate_around_helpers.duplicate_and_rotate_object`: the returned
`selected_objs` list, starting with the original object, together with the
accumulated rotation of each entry. -/
def duplicate_and_rotate_object (fresh : ℕ → String) (obj : MObj)
    (amount : ℕ) (axis : String) : List MObj :=
  let rotate_num : ℚ := 360 / (amount : ℚ)
  obj :: dar_loop fresh axis rotate_num (amount - 1) 0 obj

lemma addRot_zero (a : ℚ × ℚ × ℚ) : addRot a (0, 0, 0) = a := by
  simp [addRot]

lemma rotate_args_x (r : ℚ) : rotate_args "x" r = (r, 0, 0) := by
  simp [rotate_args]

lemma rotate_args_y (r : ℚ) : rotate_args "y" r = (0, r, 0) := by
  simp [rotate_args]

lemma rotate_args_z (r : ℚ) : rotate_args "z" r = (0, 0, r) := by
  simp [rotate_args]

lemma nsmulRot_zero (v : ℚ × ℚ × ℚ) : nsmulRot 0 v = (0, 0, 0) := by
  simp [nsmulRot]

lemma addRot_nsmulRot_succ (a v : ℚ × ℚ × ℚ) (k : ℕ) :
    addRot (addRot a (nsmulRot k v)) v = addRot a (nsmulRot (k + 1) v) := by
  simp only [addRot, nsmulRot]
  refine Prod.ext ?_ (Prod.ext ?_ ?_) <;> (push_cast; ring)

lemma dar_loop_length (fresh : ℕ → String) (axis : String) (rotate_num : ℚ)
    (n i : ℕ) (dup : MObj) :
    (dar_loop fresh axis rotate_num n i dup).length = n := by
  induction n generalizing i dup with
  | zero => rfl
  | succ n ih => simp [dar_loop, ih]

/-- Closed form of the loop: the `j`-th created duplicate carries the
starting rotation advanced by `j + 1` copies of the step rotation. -/
lemma dar_loop_getD (fresh : ℕ → String) (axis : String) (rotate_num : ℚ)
    (n : ℕ) (i : ℕ) (dup : MObj) (j : ℕ) (hj : j < n) :
    ((dar_loop fresh axis rotate_num n i dup).getD j ⟨"", (0, 0, 0)⟩).rot
      = addRot dup.rot (nsmulRot (j + 1) (rotate_args axis rotate_num)) := by
  induction n generalizing i dup j with
  | zero => omega
  | succ n ih =>
      cases j with
      | zero =>
          simp [dar_loop, nsmulRot, addRot]
      | succ j =>
          have hj' : j < n := by omega
          simp only [dar_loop, List.getD_cons_succ]
          rw [ih (i + 1)
            ⟨fresh i, addRot dup.rot (rotate_args axis rotate_num)⟩ j hj']
          simp only [addRot, nsmulRot]
          refine Prod.ext ?_ (Prod.ext ?_ ?_) <;> (push_cast; ring)

/-- C6.  For `amount ≥ 3` and a valid axis, `duplicate_and_rotate_object`
returns exactly `amount` objects, the first being the original; every object
carries the original rotation advanced by its index times `360/amount` about
the chosen axis, so each successive duplicate is rotated `360/amount`
relative to the previous one and `amount` steps sweep a full `360`
degrees. -/
theorem duplicate_and_rotate_object_spec (fresh : ℕ → String) (obj : MObj)
    (amount : ℕ) (axis : String) (h3 : 3 ≤ amount)
    (haxis : axis = "x" ∨ axis = "y" ∨ axis = "z") :
    (duplicate_and_rotate_object fresh obj amount axis).length = amount ∧
    (duplicate_and_rotate_object fresh obj amount axis).head? = some obj ∧
    (∀ k, k < amount →
      ((duplicate_and_rotate_object fresh obj amount axis).getD k
          ⟨"", (0, 0, 0)⟩).rot
        = addRot obj.rot
            (nsmulRot k (rotate_args axis (360 / (amount : ℚ))))) ∧
    (∀ k, k + 1 < amount →
      ((duplicate_and_rotate_object fresh obj amount axis).getD (k + 1)
          ⟨"", (0, 0, 0)⟩).rot
        = addRot
            (((duplicate_and_rotate_object fresh obj amount axis).getD k
                ⟨"", (0, 0, 0)⟩).rot)
            (rotate_args axis (360 / (amount : ℚ)))) ∧
    nsmulRot amount (rotate_args axis (360 / (amount : ℚ)))
      = rotate_args axis 360 := by
  have hclosed : ∀ k, k < amount →
      ((duplicate_and_rotate_object fresh obj amount axis).getD k
          ⟨"", (0, 0, 0)⟩).rot
        = addRot obj.rot
            (nsmulRot k (rotate_args axis (360 / (amount : ℚ)))) := by
    intro k hk
    cases k with
    | zero =>
        rw [nsmulRot_zero, addRot_zero]
        rfl
    | succ j =>
        have hj : j < amount - 1 := by omega
        simp only [duplicate_and_rotate_object, List.getD_cons_succ]
        exact dar_loop_getD fresh axis (360 / (amount : ℚ)) (amount - 1) 0 obj j hj
  have hamount : (amount : ℚ) ≠ 0 := by
    have : amount ≠ 0 := by omega
    exact_mod_cast this
  refine ⟨?_, rfl, hclosed, ?_, ?_⟩
  · simp only [duplicate_and_rotate_object, List.length_cons,
      dar_loop_length]
    omega
  · intro k hk
    rw [hclosed (k + 1) hk, hclosed k (by omega)]
    rw [addRot_nsmulRot_succ]
  · have hdiv : (amount : ℚ) * (360 / (amount : ℚ)) = 360 := by
      field_simp
    rcases haxis with rfl | rfl | rfl
    · rw [rotate_args_x, rotate_args_x]
      simp only [nsmulRot, mul_zero]
      rw [hdiv]
    · rw [rotate_args_y, rotate_args_y]
      simp only [nsmulRot, mul_zero]
      rw [hdiv]
    · rw [rotate_args_z, rotate_args_z]
      simp only [nsmulRot, mul_zero]
      rw [hdiv]

/-- Closed instance of `duplicate_and_rotate_object_spec` with three
duplicates about the y axis. -/
theorem duplicate_and_rotate_object_spec_witness :
    3 ≤ 3 ∧ (("y" : String) = "x" ∨ ("y" : String) = "y" ∨ ("y" : String) = "z") ∧
    ((duplicate_and_rotate_object (fun _ => "d") ⟨"obj", (0, 0, 0)⟩ 3 "y").length = 3 ∧
     (duplicate_and_rotate_object (fun _ => "d") ⟨"obj", (0, 0, 0)⟩ 3 "y").head?
        = some ⟨"obj", (0, 0, 0)⟩ ∧
     (∀ k, k < 3 →
       ((duplicate_and_rotate_object (fun _ => "d") ⟨"obj", (0, 0, 0)⟩ 3 "y").getD k
           ⟨"", (0, 0, 0)⟩).rot
         = addRot (MObj.rot ⟨"obj", (0, 0, 0)⟩)
             (nsmulRot k (rotate_args "y" (360 / ((3 : ℕ) : ℚ))))) ∧
     (∀ k, k + 1 < 3 →
       ((duplicate_and_rotate_object (fun _ => "d") ⟨"obj", (0, 0, 0)⟩ 3 "y").getD (k + 1)
           ⟨"", (0, 0, 0)⟩).rot
         = addRot
             (((duplicate_and_rotate_object (fun _ => "d") ⟨"obj", (0, 0, 0)⟩ 3 "y").getD k
                 ⟨"", (0, 0, 0)⟩).rot)
             (rotate_args "y" (360 / ((3 : ℕ) : ℚ)))) ∧
     nsmulRot 3 (rotate_args "y" (360 / ((3 : ℕ) : ℚ))) = rotate_args "y" 360) :=
  ⟨by decide, by decide,
    duplicate_and_rotate_object_spec (fun _ => "d") ⟨"obj", (0, 0, 0)⟩ 3 "y"
      (by decide) (by decide)⟩

/-! ## clothesline_helpers (C7)

`calculate_avg_space_between` computes the even gap width from the object
data; `create_clothes` then produces, in order, `amount` planes of the given
length for each entry (`clothesLengths` lists their lengths); and
`arrange_clothing` (non-randomised path) walks the accumulated distance
`dist_moved` from `avg_space - length / 2`, issuing one
`cmds.move(dist_moved, -wire_rad, 0, clothing, r=True)` per piece.  The
moves are modelled as the returned list of `(name, x, y, z)` placements
together with the final accumulated distance. -/

/-- Embedding of the `ObjData` TypedDict of `clothesline_helpers`. -/
structure ObjData where
  file_path : String
  mat_name : String
  amount : ℕ
  length : ℚ

/-- The `clothing_length` accumulation loop of
`calculate_avg_space_between`. -/
def clothing_length (objs_data : List ObjData) : ℚ :=
  objs_data.foldl (fun acc obj => acc + obj.length * (obj.amount : ℚ)) 0

/-- The `total_clothes` sum of `calculate_avg_space_between`. -/
def total_clothes (objs_data : List ObjData) : ℕ :=
  (objs_data.map ObjData.amount).sum

/-- Embedding of `clothesline_helpers.calculate_avg_space_between`:
`(length - clothing_length) / (total_clothes + 1)` when the clothing fits,
a `ValueError` otherwise. -/
def calculate_avg_space_between (objs_data : List ObjData) (length : ℚ) :
    Except String ℚ :=
  if clothing_length objs_data ≤ length then
    Except.ok
      ((length - clothing_length objs_data) /
        ((total_clothes objs_data : ℚ) + 1))
  else
    Except.error
      "Total length of clothing is larger than length of clothesline"

/-- The lengths of the clothing objects that `create_clothes` builds from
the object data, in creation order: `amount` copies of each entry's
length. -/
def clothesLengths (objs_data : List ObjData) : List ℚ :=
  objs_data.flatMap fun obj => List.replicate obj.amount obj.length

/-- The `for clothing, length in clothes_list` loop of `arrange_clothing`:
each piece is moved to `dist_moved + length / 2` (with `-wire_rad` on y and
`0` on z), and `dist_moved` then advances past the piece plus one gap. -/
def arrange_loop (avg_space wire_rad : ℚ) :
    List (String × ℚ) → ℚ → List (String × ℚ × ℚ × ℚ) × ℚ
  | [], dist_moved => ([], dist_moved)
  | (clothing, length) :: rest, dist_moved =>
      let centre := dist_moved + length / 2
      let r := arrange_loop avg_space wire_rad rest
        (centre + length / 2 + avg_space)
      ((clothing, centre, -wire_rad, 0) :: r.1, r.2)

/-- Embedding of `clothesline_helpers.arrange_clothing` on the
non-randomised path (`randomise=False`; with `randomise=True` the list is
shuffled first): the placements issued and the final accumulated
distance, starting from `dist_moved = avg_space - (length / 2)`. -/
def arrange_clothing (clothes_list : List (String × ℚ))
    (length avg_space wire_rad : ℚ) : List (String × ℚ × ℚ × ℚ) × ℚ :=
  arrange_loop avg_space wire_rad clothes_list (avg_space - length / 2)

lemma arrange_loop_final (avg_space wire_rad : ℚ)
    (clothes : List (String × ℚ)) (d : ℚ) :
    (arrange_loop avg_space wire_rad clothes d).2 =
      d + ((clothes.map fun c => c.2 + avg_space)).sum := by
  induction clothes generalizing d with
  | nil => simp [arrange_loop]
  | cons c rest ih =>
      cases c with
      | mk clothing length =>
          simp only [arrange_loop, List.map_cons, List.sum_cons]
          rw [ih]
          ring

lemma arrange_loop_getD (avg_space wire_rad : ℚ)
    (clothes : List (String × ℚ)) (d : ℚ) (i : ℕ) (hi : i < clothes.length) :
    (arrange_loop avg_space wire_rad clothes d).1.getD i ("", 0, 0, 0)
      = ((clothes.getD i ("", 0)).1,
         d + ((clothes.take i).map fun c => c.2 + avg_space).sum
           + (clothes.getD i ("", 0)).2 / 2,
         -wire_rad, 0) := by
  induction clothes generalizing d i with
  | nil => simp at hi
  | cons c rest ih =>
      cases c with
      | mk clothing length =>
          cases i with
          | zero =>
              simp [arrange_loop]
          | succ i =>
              have hi' : i < rest.length := by
                simpa using hi
              simp only [arrange_loop, List.getD_cons_succ, List.take_succ_cons,
                List.map_cons, List.sum_cons]
              rw [ih _ i hi']
              refine congrArg₂ Prod.mk rfl (congrArg₂ Prod.mk ?_ rfl)
              ring

lemma sum_map_add_const (clothes : List (String × ℚ)) (a : ℚ) :
    ((clothes.map fun c => c.2 + a)).sum
      = (clothes.map Prod.snd).sum + clothes.length * a := by
  induction clothes with
  | nil => simp
  | cons c rest ih =>
      simp only [List.map_cons, List.sum_cons, List.length_cons, ih]
      push_cast
      ring

lemma take_map_sum_succ (f : String × ℚ → ℚ) (clothes : List (String × ℚ))
    (i : ℕ) (hi : i < clothes.length) :
    ((clothes.take (i + 1)).map f).sum
      = ((clothes.take i).map f).sum + f (clothes.getD i ("", 0)) := by
  induction clothes generalizing i with
  | nil => simp at hi
  | cons c rest ih =>
      cases i with
      | zero => simp
      | succ i =>
          have hi' : i < rest.length := by simpa using hi
          simp only [List.take_succ_cons, List.map_cons, List.sum_cons,
            List.getD_cons_succ]
          rw [ih i hi']
          ring

lemma clothesLengths_sum (objs_data : List ObjData) :
    (clothesLengths objs_data).sum = clothing_length objs_data := by
  have hfold : ∀ (l : List ObjData) (z : ℚ),
      l.foldl (fun acc obj => acc + obj.length * (obj.amount : ℚ)) z
        = z + (l.map fun obj => obj.length * (obj.amount : ℚ)).sum := by
    intro l
    induction l with
    | nil => intro z; simp
    | cons o rest ih =>
        intro z
        simp only [List.foldl_cons, List.map_cons, List.sum_cons, ih]
        ring
  unfold clothing_length clothesLengths
  rw [hfold]
  induction objs_data with
  | nil => simp
  | cons o rest ih =>
      simp only [List.flatMap_cons, List.map_cons, List.sum_cons,
        List.sum_append, ih]
      rw [List.sum_replicate, nsmul_eq_mul]
      ring

lemma clothesLengths_length (objs_data : List ObjData) :
    (clothesLengths objs_data).length = total_clothes objs_data := by
  unfold clothesLengths total_clothes
  induction objs_data with
  | nil => rfl
  | cons o rest ih =>
      simp [ih]

/-- C7.  With `avg` the gap computed by `calculate_avg_space_between` and a
clothes list whose lengths are those produced from the object data, the
non-randomised `arrange_clothing` leaves a gap of exactly `avg` before the
first piece, between any two consecutive pieces, and after the last piece,
and its accumulated end position is exactly `L / 2`; and
`calculate_avg_space_between` raises `ValueError` whenever the total clothing
length exceeds the clothesline length `L`. -/
theorem arrange_clothing_even_spacing
    (objs_data : List ObjData) (L avg wire_rad : ℚ)
    (clothes_list : List (String × ℚ))
    (hlengths : clothes_list.map Prod.snd = clothesLengths objs_data) :
    (L < clothing_length objs_data →
      calculate_avg_space_between objs_data L
        = Except.error
            "Total length of clothing is larger than length of clothesline") ∧
    (calculate_avg_space_between objs_data L = Except.ok avg →
      (arrange_clothing clothes_list L avg wire_rad).2 = L / 2 ∧
      (0 < clothes_list.length →
        ((arrange_clothing clothes_list L avg wire_rad).1.getD 0
            ("", 0, 0, 0)).2.1 - (clothes_list.getD 0 ("", 0)).2 / 2
          - (-(L / 2)) = avg) ∧
      (∀ i, i + 1 < clothes_list.length →
        (((arrange_clothing clothes_list L avg wire_rad).1.getD (i + 1)
            ("", 0, 0, 0)).2.1 - (clothes_list.getD (i + 1) ("", 0)).2 / 2)
          - (((arrange_clothing clothes_list L avg wire_rad).1.getD i
              ("", 0, 0, 0)).2.1 + (clothes_list.getD i ("", 0)).2 / 2)
          = avg) ∧
      (0 < clothes_list.length →
        L / 2 - (((arrange_clothing clothes_list L avg wire_rad).1.getD
            (clothes_list.length - 1) ("", 0, 0, 0)).2.1
          + (clothes_list.getD (clothes_list.length - 1) ("", 0)).2 / 2)
          = avg)) := by
  constructor
  · intro hgt
    unfold calculate_avg_space_between
    rw [if_neg (not_le.mpr hgt)]
  · intro hok
    have hcond : clothing_length objs_data ≤ L := by
      by_contra hc
      unfold calculate_avg_space_between at hok
      rw [if_neg hc] at hok
      exact Except.noConfusion hok
    have havg : avg
        = (L - clothing_length objs_data) /
            ((total_clothes objs_data : ℚ) + 1) := by
      unfold calculate_avg_space_between at hok
      rw [if_pos hcond] at hok
      injection hok with h
      exact h.symm
    have hsum : (clothes_list.map Prod.snd).sum = clothing_length objs_data := by
      rw [hlengths, clothesLengths_sum]
    have hcount : clothes_list.length = total_clothes objs_data := by
      rw [← clothesLengths_length, ← hlengths, List.length_map]
    have hden : ((clothes_list.length : ℚ) + 1) ≠ 0 := by positivity
    have hfinal : (arrange_clothing clothes_list L avg wire_rad).2 = L / 2 := by
      unfold arrange_clothing
      rw [arrange_loop_final, sum_map_add_const, hsum, havg, ← hcount]
      field_simp
      ring
    have hsumall : ((clothes_list.map fun c => c.2 + avg)).sum
        = L / 2 - (avg - L / 2) := by
      have h := arrange_loop_final avg wire_rad clothes_list (avg - L / 2)
      have h2 := hfinal
      unfold arrange_clothing at h2
      rw [h] at h2
      linarith
    refine ⟨hfinal, ?_, ?_, ?_⟩
    · intro hpos
      unfold arrange_clothing
      rw [arrange_loop_getD _ _ _ _ 0 hpos]
      dsimp only
      simp only [List.take_zero, List.map_nil, List.sum_nil]
      ring
    · intro i hi
      unfold arrange_clothing
      rw [arrange_loop_getD _ _ _ _ (i + 1) hi,
        arrange_loop_getD _ _ _ _ i (by omega)]
      dsimp only
      rw [take_map_sum_succ _ _ i (by omega)]
      ring
    · intro hpos
      have hlast : clothes_list.length - 1 < clothes_list.length := by omega
      have htake := take_map_sum_succ (fun c => c.2 + avg) clothes_list
        (clothes_list.length - 1) hlast
      rw [show clothes_list.length - 1 + 1 = clothes_list.length from by omega,
        List.take_length] at htake
      unfold arrange_clothing
      rw [arrange_loop_getD _ _ _ _ (clothes_list.length - 1) hlast]
      dsimp only
      rw [hsumall] at htake
      linarith [htake]

/-- Closed instance of `arrange_clothing_even_spacing`: two pieces of length
`1` from one data entry on a line of length `5`, giving `avg = 1`. -/
theorem arrange_clothing_even_spacing_witness :
    ([("a", 1), ("b", 1)] : List (String × ℚ)).map Prod.snd
        = clothesLengths [⟨"p", "m", 2, 1⟩] ∧
    calculate_avg_space_between [⟨"p", "m", 2, 1⟩] 5 = Except.ok 1 ∧
    (arrange_clothing [("a", 1), ("b", 1)] 5 1 0).2 = 5 / 2 := by
  have h1 : ([("a", 1), ("b", 1)] : List (String × ℚ)).map Prod.snd
      = clothesLengths [⟨"p", "m", 2, 1⟩] := by
    simp [clothesLengths, List.replicate]
  have h2 : calculate_avg_space_between [⟨"p", "m", 2, 1⟩] 5
      = Except.ok 1 := by
    simp [calculate_avg_space_between, clothing_length, total_clothes]
    norm_num
  exact ⟨h1, h2,
    ((arrange_clothing_even_spacing [⟨"p", "m", 2, 1⟩] 5 1 0
      [("a", 1), ("b", 1)] h1).2 h2).1⟩

/-! ## clothesline_helpers.get_unique_name (C10)

The Python loop tries `name_1, name_2, ...` against
`cmds.ls(f"{name}_*")` until a candidate is free.  The scene is modelled by
the list of all object names, and the `ls` glob `name_*` by filtering on the
string prefix `name ++ "_"` (checked on the character lists).  The unbounded
`while` is embedded as a fuelled loop; the main theorem shows that
`(number of matching objects) + 1` rounds of fuel always suffice, i.e. the
Python loop terminates, with the least free positive suffix.

The termination argument needs that decimal rendering (`str(suffix)`, i.e.
`Nat.repr`) is injective, which is proved first via a decimal decoder. -/

/-- Decimal decoder: folds a digit string back into the number it
denotes. -/
def decDigits (cs : List Char) : ℕ :=
  cs.foldl (fun a c => 10 * a + (c.toNat - Char.toNat '0')) 0

lemma digitChar_val (d : ℕ) (hd : d < 10) :
    (Nat.digitChar d).toNat - Char.toNat '0' = d := by
  interval_cases d <;> rfl

lemma toDigitsCore_append (b : ℕ) (fuel : ℕ) : ∀ (n : ℕ) (ds : List Char),
    Nat.toDigitsCore b fuel n ds = Nat.toDigitsCore b fuel n [] ++ ds := by
  induction fuel with
  | zero =>
      intro n ds
      simp [Nat.toDigitsCore]
  | succ fuel ih =>
      intro n ds
      simp only [Nat.toDigitsCore]
      by_cases h : n / b = 0
      · rw [if_pos h, if_pos h]
        rfl
      · rw [if_neg h, if_neg h, ih (n / b) ((n % b).digitChar :: ds),
          ih (n / b) [(n % b).digitChar], List.append_assoc]
        rfl

lemma decDigits_toDigitsCore (fuel : ℕ) : ∀ n : ℕ, n < fuel →
    decDigits (Nat.toDigitsCore 10 fuel n []) = n := by
  induction fuel with
  | zero => omega
  | succ fuel ih =>
      intro n hn
      simp only [Nat.toDigitsCore]
      by_cases h0 : n / 10 = 0
      · rw [if_pos h0]
        have hlt : n < 10 := (Nat.div_eq_zero_iff (by norm_num)).mp h0
        have hmod : n % 10 = n := Nat.mod_eq_of_lt hlt
        simp only [decDigits, List.foldl_cons, List.foldl_nil, Nat.mul_zero,
          Nat.zero_add]
        rw [digitChar_val (n % 10) (Nat.mod_lt n (by norm_num)), hmod]
      · rw [if_neg h0]
        have hpos : 0 < n := by
          rcases Nat.eq_zero_or_pos n with h | h
          · exact absurd (by simp [h]) h0
          · exact h
        have hdiv : n / 10 < fuel := by
          have h1 : n / 10 < n := Nat.div_lt_self hpos (by norm_num)
          omega
        rw [toDigitsCore_append 10 fuel (n / 10) [(n % 10).digitChar]]
        unfold decDigits
        rw [List.foldl_append]
        simp only [List.foldl_cons, List.foldl_nil]
        have hcore : List.foldl (fun a c => 10 * a + (c.toNat - Char.toNat '0'))
            0 (Nat.toDigitsCore 10 fuel (n / 10) []) = n / 10 := ih (n / 10) hdiv
        rw [hcore, digitChar_val (n % 10) (Nat.mod_lt n (by norm_num))]
        omega

/-- Decimal rendering of naturals (Python's `str`) is injective. -/
lemma natRepr_injective : Function.Injective Nat.repr := by
  intro m n h
  have hdata : Nat.toDigits 10 m = Nat.toDigits 10 n := by
    have hd := congrArg String.data h
    simpa [Nat.repr, List.asString] using hd
  have hm : decDigits (Nat.toDigits 10 m) = m :=
    decDigits_toDigitsCore (m + 1) m (by omega)
  have hn : decDigits (Nat.toDigits 10 n) = n :=
    decDigits_toDigitsCore (n + 1) n (by omega)
  rw [← hm, ← hn, hdata]

/-- The candidate names `name_k` are pairwise distinct. -/
lemma cand_injective (name : String) :
    Function.Injective (fun k : ℕ => name ++ "_" ++ Nat.repr k) := by
  intro a b h
  apply natRepr_injective
  apply String.ext
  have hd := congrArg String.data h
  rw [String.data_append, String.data_append] at hd
  exact List.append_cancel_left hd

/-- Model of `cmds.ls(f"{name}_*")`: the scene objects whose names match the
glob, i.e. start with `name ++ "_"`. -/
def lsMatches (scene : List String) (name : String) : List String :=
  scene.filter fun s => (name ++ "_").data.isPrefixOf s.data

/-- The `while not unique_name` loop of
`clothesline_helpers.get_unique_name`, fuelled: try `name_suffix`; if it is
among the matching scene objects, retry with `suffix + 1`. -/
def get_unique_name_loop (scene : List String) (name : String) :
    ℕ → ℕ → Option String
  | 0, _ => none
  | fuel + 1, suffix =>
      if (name ++ "_" ++ Nat.repr suffix) ∈ lsMatches scene name
      then get_unique_name_loop scene name fuel (suffix + 1)
      else some (name ++ "_" ++ Nat.repr suffix)

/-- Embedding of `clothesline_helpers.get_unique_name`: the loop started at
`suffix = 1`, with enough fuel for the pigeonhole bound. -/
def get_unique_name (scene : List String) (name : String) : Option String :=
  get_unique_name_loop scene name ((lsMatches scene name).length + 1) 1

/-- Any candidate name `name_k` matches the glob, so freedom from the `ls`
result is the same as absence from the scene. -/
lemma cand_mem_lsMatches_iff (scene : List String) (name : String) (k : ℕ) :
    (name ++ "_" ++ Nat.repr k) ∈ lsMatches scene name ↔
      (name ++ "_" ++ Nat.repr k) ∈ scene := by
  unfold lsMatches
  rw [List.mem_filter]
  constructor
  · exact fun h => h.1
  · intro h
    refine ⟨h, ?_⟩
    rw [List.isPrefixOf_iff_prefix, String.data_append]
    exact List.prefix_append _ _

/-- If some candidate in the fuel window is free, the loop stops at the
first free candidate at or after the start suffix. -/
lemma get_unique_name_loop_finds (scene : List String) (name : String) :
    ∀ (fuel start : ℕ),
      (∃ j, start ≤ j ∧ j < start + fuel ∧
        (name ++ "_" ++ Nat.repr j) ∉ lsMatches scene name) →
      ∃ k, get_unique_name_loop scene name fuel start
          = some (name ++ "_" ++ Nat.repr k) ∧ start ≤ k ∧
        (name ++ "_" ++ Nat.repr k) ∉ lsMatches scene name ∧
        ∀ j, start ≤ j → j < k →
          (name ++ "_" ++ Nat.repr j) ∈ lsMatches scene name := by
  intro fuel
  induction fuel with
  | zero =>
      intro start ⟨j, hj1, hj2, _⟩
      omega
  | succ fuel ih =>
      intro start hex
      by_cases hmem :
          (name ++ "_" ++ Nat.repr start) ∈ lsMatches scene name
      · obtain ⟨j, hj1, hj2, hjfree⟩ := hex
        have hjne : j ≠ start := fun h => hjfree (h ▸ hmem)
        obtain ⟨k, hk, hk1, hkfree, hkmin⟩ := ih (start + 1)
          ⟨j, by omega, by omega, hjfree⟩
        refine ⟨k, ?_, by omega, hkfree, ?_⟩
        · unfold get_unique_name_loop
          rw [if_pos hmem]
          exact hk
        · intro i hi1 hi2
          rcases Nat.eq_or_lt_of_le hi1 with h | h
          · exact h ▸ hmem
          · exact hkmin i (by omega) hi2
      · refine ⟨start, ?_, le_refl _, hmem, ?_⟩
        · unfold get_unique_name_loop
          rw [if_neg hmem]
        · intro i hi1 hi2
          omega

/-- Pigeonhole: among the first `(number of matches) + 1` candidates,
some candidate is free. -/
lemma exists_free_cand (scene : List String) (name : String) :
    ∃ j, 1 ≤ j ∧ j < 1 + ((lsMatches scene name).length + 1) ∧
      (name ++ "_" ++ Nat.repr j) ∉ lsMatches scene name := by
  by_contra hall
  push_neg at hall
  have hmem : ∀ j, 1 ≤ j → j < (lsMatches scene name).length + 2 →
      (name ++ "_" ++ Nat.repr j) ∈ lsMatches scene name := by
    intro j h1 h2
    exact hall j h1 (by omega)
  have hnodup :
      ((List.range ((lsMatches scene name).length + 1)).map
        fun i => name ++ "_" ++ Nat.repr (i + 1)).Nodup := by
    refine List.Nodup.map ?_ (List.nodup_range _)
    intro a b hab
    have h2 := cand_injective name hab
    omega
  have hsub : ∀ s ∈ (List.range ((lsMatches scene name).length + 1)).map
      (fun i => name ++ "_" ++ Nat.repr (i + 1)), s ∈ lsMatches scene name := by
    intro s hs
    obtain ⟨i, hi, rfl⟩ := List.mem_map.mp hs
    have hi' : i < (lsMatches scene name).length + 1 := List.mem_range.mp hi
    exact hmem (i + 1) (by omega) (by omega)
  have hcard : ((List.range ((lsMatches scene name).length + 1)).map
      (fun i => name ++ "_" ++ Nat.repr (i + 1))).toFinset.card
      = (lsMatches scene name).length + 1 := by
    rw [List.toFinset_card_of_nodup hnodup]
    simp
  have hle : ((List.range ((lsMatches scene name).length + 1)).map
      (fun i => name ++ "_" ++ Nat.repr (i + 1))).toFinset.card
      ≤ (lsMatches scene name).toFinset.card := by
    apply Finset.card_le_card
    intro x hx
    rw [List.mem_toFinset] at hx ⊢
    exact hsub x hx
  have hlen := List.toFinset_card_le (lsMatches scene name)
  omega

/-- C10.  `get_unique_name` terminates within the pigeonhole fuel bound and
returns `name_k` for the least positive `k` whose candidate is not among the
scene objects matching the glob `name_*`; in particular the returned name is
not present in the scene. -/
theorem get_unique_name_least (scene : List String) (name : String) :
    ∃ k, 1 ≤ k ∧
      get_unique_name scene name = some (name ++ "_" ++ Nat.repr k) ∧
      (name ++ "_" ++ Nat.repr k) ∉ scene ∧
      ∀ j, 1 ≤ j → j < k →
        (name ++ "_" ++ Nat.repr j) ∈ lsMatches scene name := by
  obtain ⟨k, hk, hk1, hkfree, hkmin⟩ :=
    get_unique_name_loop_finds scene name
      ((lsMatches scene name).length + 1) 1 (exists_free_cand scene name)
  exact ⟨k, hk1, hk,
    fun hmem => hkfree ((cand_mem_lsMatches_iff scene name k).mpr hmem),
    hkmin⟩

/-! ## auto_bridge.check_edge_borders (C3)

The function works on raw component-name strings, so the Python string
operations are embedded directly: `str.split` on a separator (structurally
recursive, so that concrete runs evaluate), `int(...)` on the numeral piece,
and `str.startswith` as a character-list prefix test.  The Maya queries it
performs are modelled by a scene record: `edgeCount` is
`cmds.polyEvaluate(sel, ec=True)` (`0` is falsy) and `borderOf i` is
`cmds.polySelect(q=True, eb=i)` (`[]` is falsy; Maya returns the border loop
with the starting index repeated at the end, which the Python code strips
with `[:-1]`).  A raised `RuntimeError` and a raw Python exception
(IndexError from `[1]`, ValueError from `int(...)`) are distinguished. -/

/-- Exceptions of `check_edge_borders`. -/
inductive PyErr where
  | runtimeError (msg : String)
  | pythonError
  deriving DecidableEq

deriving instance DecidableEq for Except

/-- Scene model for the Maya queries of `check_edge_borders`. -/
structure BridgeScene where
  edgeCount : List String → ℕ
  borderOf : ℤ → List ℤ

/-- First occurrence of `sep` in a character list: the part before it and
the part after it. -/
def findSub (sep : List Char) : List Char → Option (List Char × List Char)
  | [] => none
  | c :: rest =>
      if sep.isPrefixOf (c :: rest) then some ([], (c :: rest).drop sep.length)
      else
        match findSub sep rest with
        | none => none
        | some (b, a) => some (c :: b, a)

/-- Fuelled splitting loop for `pySplit`; one unit of fuel per separator
occurrence, so `length + 1` always suffices for a non-empty separator. -/
def pySplitGo (sep : List Char) : ℕ → List Char → List (List Char)
  | 0, l => [l]
  | fuel + 1, l =>
      match findSub sep l with
      | none => [l]
      | some (b, a) => b :: pySplitGo sep fuel a

/-- Python's `s.split(sep)` for a non-empty separator. -/
def pySplit (sep s : String) : List String :=
  (pySplitGo sep.data (s.data.length + 1) s.data).map List.asString

/-- Python's `int(...)` on a canonical decimal numeral (an optional sign
followed by digits; the whitespace and underscore tolerance of `int` never
arises on Maya component names). -/
def natOfDigits (cs : List Char) : Option ℕ :=
  if cs = [] then none
  else
    cs.foldl
      (fun acc c =>
        match acc with
        | some a => if c.isDigit then some (10 * a + (c.toNat - Char.toNat '0')) else none
        | none => none)
      (some 0)

/-- Python's `int(s)` returning `none` where `int` raises `ValueError`. -/
def pyInt (s : String) : Option ℤ :=
  match s.data with
  | '-' :: rest => (natOfDigits rest).map fun n => -(n : ℤ)
  | cs => (natOfDigits cs).map fun n => (n : ℤ)

/-- The index-extraction expression
`int(edge.split(".e[")[1].split("]")[0])`; `none` models the Python
exception when `[1]` does not exist or `int` fails. -/
def parseEdgeIndex (edge : String) : Option ℤ :=
  match pySplit ".e[" edge with
  | _ :: s :: _ =>
      match (pySplit "]" s).head? with
      | some t => pyInt t
      | none => none
  | _ => none

/-- The `for edge in selected_edges` index-collection loop. -/
def parseIndices : List String → Option (List ℤ)
  | [] => some []
  | e :: rest =>
      match parseEdgeIndex e, parseIndices rest with
      | some i, some is => some (i :: is)
      | _, _ => none

/-- The f-string `f"{obj_name}.e[{i}]"` used to build border edge names. -/
def render_edge (obj_name : String) (i : ℤ) : String :=
  obj_name ++ ".e[" ++ toString i ++ "]"

/-- Embedding of `auto_bridge.check_edge_borders`.  Python's
`list(set(selected_edges) - set(eb_first))` is embedded as the filter that
keeps the selected edges outside `eb_first` (a canonical order for the
unordered Python set). -/
def check_edge_borders (sc : BridgeScene) (obj_name : String)
    (selected_edges : List String) :
    Except PyErr (List String × List String) :=
  if sc.edgeCount selected_edges = 0 then
    .error (.runtimeError "Only edge borders should be selected.")
  else
    match parseIndices selected_edges with
    | none => .error .pythonError
    | some selected_edges_indices =>
      if ¬ (∀ edge ∈ selected_edges,
          obj_name.data.isPrefixOf edge.data = true) then
        .error (.runtimeError "Selected edges must be on the same mesh.")
      else
        match selected_edges with
        | [] => .error .pythonError
        | first_edge :: _ =>
          match parseEdgeIndex first_edge with
          | none => .error .pythonError
          | some first_edge_index =>
            let eb_first_indices := sc.borderOf first_edge_index
            if eb_first_indices = [] then
              .error (.runtimeError "Two edge borders must be selected.")
            else if ¬ (∀ i ∈ eb_first_indices,
                i ∈ selected_edges_indices) then
              .error (.runtimeError "Two edge borders must be selected.")
            else
              let eb_first :=
                eb_first_indices.dropLast.map (render_edge obj_name)
              let other_edges :=
                selected_edges.filter fun e => decide (e ∉ eb_first)
              match other_edges with
              | [] =>
                  .error (.runtimeError "Another edge border must be selected.")
              | second_edge :: _ =>
                match parseEdgeIndex second_edge with
                | none => .error .pythonError
                | some second_edge_index =>
                  let eb_second_indices := sc.borderOf second_edge_index
                  if eb_second_indices = [] then
                    .error (.runtimeError "Two edge borders must be selected.")
                  else if ¬ (∀ i ∈ eb_second_indices,
                      i ∈ selected_edges_indices) then
                    .error (.runtimeError "Two edge borders must be selected.")
                  else
                    let eb_second :=
                      eb_second_indices.dropLast.map (render_edge obj_name)
                    if other_edges.length < eb_second.length then
                      .error (.runtimeError
                        "More edges must be selected for the edge borders.")
                    else if selected_edges.length
                        < eb_first.length + eb_second.length then
                      .error (.runtimeError
                        "More edges must be selected for the edge borders.")
                    else if eb_first.length + eb_second.length
                        < selected_edges.length then
                      .error (.runtimeError "Too many edges have been selected.")
                    else if eb_second.length > other_edges.length then
                      .error (.runtimeError "Too many edges have been selected.")
                    else
                      .ok (eb_first, eb_second)

/-- A concrete scene for the same-mesh failing input: `pCube1` has two
three-edge borders `0,1,2` and `3,4,5` (the border query returns the loop
with its starting index repeated at the end), and the selection counts six
edge components. -/
def cebScene : BridgeScene :=
  ⟨fun sel => sel.length,
   fun i =>
     if i = 0 then [0, 1, 2, 0]
     else if i = 1 then [1, 2, 0, 1]
     else if i = 2 then [2, 0, 1, 2]
     else if i = 3 then [3, 4, 5, 3]
     else if i = 4 then [4, 5, 3, 4]
     else if i = 5 then [5, 3, 4, 5]
     else []⟩

/-- C3.  Failing input for the same-mesh check of `check_edge_borders`:
`edge.startswith(obj_name)` accepts the edges of the *different* mesh
`pCube10` because its name has `pCube1` as a prefix, and with border
indices that line up the call returns successfully instead of raising
`RuntimeError("Selected edges must be on the same mesh.")` — and the second
returned border names `pCube1` edges that were never selected. -/
theorem check_edge_borders_same_mesh_bug :
    (("pCube1" : String).data.isPrefixOf ("pCube10.e[3]" : String).data
        = true) ∧
    check_edge_borders cebScene "pCube1"
        ["pCube1.e[0]", "pCube1.e[1]", "pCube1.e[2]",
         "pCube10.e[3]", "pCube10.e[4]", "pCube10.e[5]"]
      = Except.ok
          (["pCube1.e[0]", "pCube1.e[1]", "pCube1.e[2]"],
           ["pCube1.e[3]", "pCube1.e[4]", "pCube1.e[5]"]) := by
  exact ⟨by decide, by decide⟩

/-! ## UI exposure of the four tools (C8)

The four tool operations of the repository, the Qt dialog classes it
defines, and which tool operation each dialog's button handlers call
directly, transcribed from the sources: `ClotheslineDialog`
(`clothesline_ui.py`, `submit_clothesline_data` calls
`clh.create_clothesline`), `MultipleWindowsDialog`
(`create_multiple_windows_ui.py`, `create_windows` calls
`cmwh.create_multiple_windows`) and `DuplicateAroundDialog`
(`duplicate_around_ui.py`, `duplicate_around` calls
`dah.duplicate_around_point`).  `auto_bridge.py` defines no dialog class and
no dialog handler calls `auto_bridge`; the only caller of `auto_bridge` in
the repository is the helper `create_multiple_windows` (when its
`bridge_windows` flag is set). -/

/-- The four tool operations of the repository. -/
inductive Tool where
  | autoBridge
  | createClothesline
  | createMultipleWindows
  | duplicateAroundPoint
  deriving DecidableEq, Fintype

/-- A QDialog subclass of the repository with the tool operations its
handlers invoke directly. -/
structure DialogClass where
  name : String
  invokes : List Tool
  deriving DecidableEq

/-- The QDialog subclasses defined in the repository, with their direct
tool-operation calls. -/
def repoDialogs : List DialogClass :=
  [⟨"ClotheslineDialog", [Tool.createClothesline]⟩,
   ⟨"MultipleWindowsDialog", [Tool.createMultipleWindows]⟩,
   ⟨"DuplicateAroundDialog", [Tool.duplicateAroundPoint]⟩]

/-- Direct calls between the four tool operations themselves:
`create_multiple_windows` calls `ab.auto_bridge` when bridging the wall. -/
def toolCalls : List (Tool × Tool) :=
  [(Tool.createMultipleWindows, Tool.autoBridge)]

/-- Counterexample to C8 as stated: no QDialog class of the repository
invokes the mesh-hole bridging operation `auto_bridge`. -/
theorem no_dialog_invokes_auto_bridge :
    ¬ ∃ d ∈ repoDialogs, Tool.autoBridge ∈ d.invokes := by
  decide

/-- C8 (amended).  Each of the other three tools — clothesline generation,
multi-window paneling and radial duplication — is invoked by a QDialog class
of the repository; `auto_bridge` has no dialog of its own and is reached
only through `create_multiple_windows`. -/
theorem dialogs_cover_three_tools :
    (∀ t : Tool, t ≠ Tool.autoBridge → ∃ d ∈ repoDialogs, t ∈ d.invokes) ∧
    (Tool.createMultipleWindows, Tool.autoBridge) ∈ toolCalls := by
  decide

/-- Closed instance of `dialogs_cover_three_tools` at the clothesline
tool. -/
theorem dialogs_cover_three_tools_witness :
    Tool.createClothesline ≠ Tool.autoBridge ∧
    ∃ d ∈ repoDialogs, Tool.createClothesline ∈ d.invokes :=
  ⟨by decide, dialogs_cover_three_tools.1 Tool.createClothesline (by decide)⟩

end MayaTools
